import Mathlib

/-!
Verification of the gameboy emulator core (`src/cpu/cpu.rs`) against its
natural-language specification.

The repository ships the opcode handlers in `src/cpu/cpu.rs`; the register
file (`crate::cpu::registers`) and the memory unit (`crate::cpu::mmu`) are
referenced there but their sources are not present, so those two pieces are
modelled from the specification (sections 3, 4.1 and 4.3).  The opcode
bodies themselves are embedded statement by statement from `cpu.rs`.
-/

namespace Gameboy

/-- Modelled from the spec: the register file (`crate::cpu::registers`,
absent from the sources).  Eight 8-bit registers A, B, C, D, E, H, L, F, a
16-bit stack pointer and program counter, and the per-instruction clock
fields `m` and `t`.  The opcode bodies in `cpu.rs` add past the 8-bit range
and compare against 255 before masking, so register cells are carried as
natural numbers and masked exactly where the code masks them; 16-bit
quantities wrap modulo 65536 as the spec's section 3 requires. -/
structure Registers where
  a : Nat
  b : Nat
  c : Nat
  d : Nat
  e : Nat
  h : Nat
  l : Nat
  f : Nat
  pc : Nat
  sp : Nat
  m : Nat
  t : Nat
deriving Repr, DecidableEq

/-- Byte-addressed memory, as a total function from addresses to bytes. -/
def Mem : Type := Nat → Nat

/-- Modelled from the spec: `Mmu::wb` (write byte; `crate::cpu::mmu` is
absent from the sources).  Every address resolves, so a write is a pointwise
function update. -/
def wb (mem : Mem) (addr v : Nat) : Mem :=
  fun x => if x = addr then v else mem x

/-- Modelled from the spec: `Mmu::rb` (read byte). -/
def rb (mem : Mem) (addr : Nat) : Nat :=
  mem addr

/-- Modelled from the spec: `Mmu::rw` (read 16-bit word, little-endian). -/
def rw (mem : Mem) (addr : Nat) : Nat :=
  rb mem addr + 256 * rb mem ((addr + 1) % 65536)

/-- The whole machine state seen by the opcode handlers: the register file
plus memory (the Rust `Mmu` is a process-wide unit; here it is passed
explicitly). -/
structure Cpu where
  r : Registers
  mem : Mem

/-- `Cpu::add_register_e` (ADD A,E), embedded statement by statement from
`cpu.rs`: `a += e`; `f = 0`; if `a == 0` set 0x80; if `a > 255` set 0x10;
`a &= 255`; `m = 1`; `t = 4`.  Note the zero and carry tests read the
pre-mask sum, and no half-carry bit is ever computed. -/
def add_register_e (s : Cpu) : Cpu :=
  let a1 := s.r.a + s.r.e
  let f1 := 0
  let f2 := if a1 = 0 then f1 ||| 0x80 else f1
  let f3 := if a1 > 255 then f2 ||| 0x10 else f2
  let a2 := a1 &&& 255
  { s with r := { s.r with a := a2, f := f3, m := 1, t := 4 } }

/-- `Cpu::compare_register_b` (CP A,B), embedded from `cpu.rs`: a temporary
copy of A has B subtracted from it (the `i < 0` underflow test requires the
temporary to be signed, so it is carried as an integer); `f |= 0x40`; if
`i == 0` set 0x80; if `i < 0` set 0x10; `m = 1`; `t = 4`.  Flags are ORed
into the existing F and no half-carry bit is ever computed. -/
def compare_register_b (s : Cpu) : Cpu :=
  let i : Int := (s.r.a : Int) - (s.r.b : Int)
  let f1 := s.r.f ||| 0x40
  let f2 := if i = 0 then f1 ||| 0x80 else f1
  let f3 := if i < 0 then f2 ||| 0x10 else f2
  { s with r := { s.r with f := f3, m := 1, t := 4 } }

/-- `Cpu::no_operation` (NOP), embedded from `cpu.rs`. -/
def no_operation (s : Cpu) : Cpu :=
  { s with r := { s.r with m := 1, t := 4 } }

/-- `Cpu::push_registers_b_c` (PUSH BC), embedded from `cpu.rs`:
`sp -= 1`; write B; `sp -= 1`; write C; `m = 3`; `t = 12`.  The stack
pointer decrement wraps modulo 65536 (spec section 3: all 16-bit values
wrap, never fault). -/
def push_registers_b_c (s : Cpu) : Cpu :=
  let sp1 := (s.r.sp + 65535) % 65536
  let mem1 := wb s.mem sp1 s.r.b
  let sp2 := (sp1 + 65535) % 65536
  let mem2 := wb mem1 sp2 s.r.c
  { r := { s.r with sp := sp2, m := 3, t := 12 }, mem := mem2 }

/-- `Cpu::pop_registers_h_l` (POP HL), embedded from `cpu.rs`:
read L at `sp`; `sp += 1`; read H; `sp += 1`; `m = 3`; `t = 12`. -/
def pop_registers_h_l (s : Cpu) : Cpu :=
  let l1 := rb s.mem s.r.sp
  let sp1 := (s.r.sp + 1) % 65536
  let h1 := rb s.mem sp1
  let sp2 := (sp1 + 1) % 65536
  { s with r := { s.r with h := h1, l := l1, sp := sp2, m := 3, t := 12 } }

/-- `Cpu::ldamm` (LD A,(addr)), embedded from `cpu.rs`: read the operand
word at `pc`; `pc += 2` (wrapping modulo 65536); load A from that address;
`m = 4`; `t = 16`.  No memory write occurs. -/
def ldamm (s : Cpu) : Cpu :=
  let addr := rw s.mem s.r.pc
  let pc1 := (s.r.pc + 2) % 65536
  let a1 := rb s.mem addr
  { s with r := { s.r with a := a1, pc := pc1, m := 4, t := 16 } }

/-- Modelled from the spec: the hardware-documented set of illegal opcode
values of the LR35902 (spec section 4.2: "a fixed, hardware-documented
set"); the dispatch loop itself is absent from the sources (`Cpu::exec` is
an empty stub). -/
def illegal_opcodes : List Nat :=
  [0xD3, 0xDB, 0xDD, 0xE3, 0xE4, 0xEB, 0xEC, 0xED, 0xF4, 0xFC, 0xFD]

/-- Modelled from the spec: the execution-engine state visible to the
driver — the program counter plus the terminal "halted on illegal opcode"
condition that section 4.2 requires to be surfaced as a reportable state
rather than a fault. -/
structure ExecState where
  pc : Nat
  halted_illegal : Bool
deriving Repr, DecidableEq

/-- Modelled from the spec: one call of the execution engine's `step`
(section 4.2; absent from the sources).  In the terminal illegal-opcode
state the step reports the condition and changes nothing; on fetching an
illegal opcode it enters that state without advancing the program counter;
otherwise it fetches and advances (instruction effects beyond the program
counter are irrelevant to the lock-up claim). -/
def spec_step (mem : Mem) (s : ExecState) : ExecState :=
  if s.halted_illegal then s
  else if mem s.pc ∈ illegal_opcodes then
    { s with halted_illegal := true }
  else
    { s with pc := (s.pc + 1) % 65536 }

/-- `n` consecutive calls of `spec_step`. -/
def spec_run (mem : Mem) : Nat → ExecState → ExecState
  | 0, s => s
  | n + 1, s => spec_step mem (spec_run mem n s)

/-- Modelled from the spec: the PPU's per-scanline timing state (section
4.6; the PPU is absent from the sources): current scanline index, the
in-scanline cycle counter, and a count of completed frames.  A line lasts
456 cycles and a frame 154 lines. -/
structure PpuState where
  line : Nat
  dot : Nat
  frames : Nat
deriving Repr, DecidableEq

/-- Modelled from the spec: one cycle of PPU time (section 4.6).  The dot
counter advances within the 456-cycle line; at a line boundary the scanline
index advances; past line 153 the frame completes and both counters reset. -/
def ppu_tick (s : PpuState) : PpuState :=
  if s.dot + 1 < 456 then { s with dot := s.dot + 1 }
  else if s.line + 1 < 154 then { line := s.line + 1, dot := 0, frames := s.frames }
  else { line := 0, dot := 0, frames := s.frames + 1 }

/-- `n` cycles of PPU time. -/
def ppu_run : Nat → PpuState → PpuState
  | 0, s => s
  | n + 1, s => ppu_tick (ppu_run n s)

/-- Modelled from the spec: the frame driver (section 2's System Clock /
Frame Driver, absent from the sources) fans the cycle cost of each executed
instruction out to the PPU. -/
def frame_advance : List Nat → PpuState → PpuState
  | [], s => s
  | c :: cs, s => frame_advance cs (ppu_run c s)

/-- Modelled from the spec: the timer unit's register state (section 4.4;
the timer is absent from the sources): divider, counter, reload and
control registers. -/
structure Timer where
  div : Nat
  tima : Nat
  tma : Nat
  tac : Nat
deriving Repr, DecidableEq

/-- Modelled from the spec: the I/O-window write dispatch for the timer
registers (sections 4.3 and 4.4; the MMU's I/O dispatch is absent from the
sources).  Any write to the divider's address 0xFF04 resets the divider to
zero rather than storing the written value; the other timer registers store
the written byte. -/
def timer_write (t : Timer) (addr v : Nat) : Timer :=
  if addr = 0xFF04 then { t with div := 0 }
  else if addr = 0xFF05 then { t with tima := v % 256 }
  else if addr = 0xFF06 then { t with tma := v % 256 }
  else if addr = 0xFF07 then { t with tac := v % 256 }
  else t

/-- Modelled from the spec: the I/O-window read dispatch for the timer
registers. -/
def timer_read (t : Timer) (addr : Nat) : Nat :=
  if addr = 0xFF04 then t.div
  else if addr = 0xFF05 then t.tima
  else if addr = 0xFF06 then t.tma
  else if addr = 0xFF07 then t.tac
  else 0xFF

/-- All-zero memory, used for concrete evaluations. -/
def zeroMem : Mem := fun _ => 0

/-- The spec's own worked example for ADD A,E: A holds 0xFF and E holds
0x01 before the instruction. -/
def c1_state : Cpu :=
  { r := { a := 0xFF, b := 0, c := 0, d := 0, e := 0x01, h := 0, l := 0,
           f := 0, pc := 0, sp := 0, m := 0, t := 0 }, mem := zeroMem }

/-- A CP A,B input with a low-nibble borrow: A holds 0x10, B holds 0x01,
so the low nibble of B exceeds the low nibble of A. -/
def c2_state : Cpu :=
  { r := { a := 0x10, b := 0x01, c := 0, d := 0, e := 0, h := 0, l := 0,
           f := 0, pc := 0, sp := 0, m := 0, t := 0 }, mem := zeroMem }

/-- A generic concrete machine state (F has a clear low nibble, the stack
pointer is in the 16-bit range) used to instantiate the universally
quantified theorems. -/
def sample_cpu : Cpu :=
  { r := { a := 1, b := 2, c := 3, d := 4, e := 5, h := 6, l := 7,
           f := 0x30, pc := 0x100, sp := 0xFFFE, m := 0, t := 0 }, mem := zeroMem }

/-! ## Helper lemmas -/

/-- Absorption for bitwise operations on naturals: ANDing a value with any
OR-extension of itself gives the value back. -/
theorem land_lor_absorb (x y : Nat) : x &&& (x ||| y) = x := by
  apply Nat.eq_of_testBit_eq
  intro i
  rw [Nat.testBit_and, Nat.testBit_or]
  cases x.testBit i <;> simp

/-- ORing two values whose low nibbles are clear yields a value whose low
nibble is clear. -/
theorem lor_mod_sixteen {x y : Nat} (hx : x % 16 = 0) (hy : y % 16 = 0) :
    (x ||| y) % 16 = 0 := by
  have h : ∀ z : Nat, z &&& 15 = z % 16 := by
    intro z
    have h4 := Nat.and_pow_two_sub_one_eq_mod z 4
    norm_num at h4
    exact h4
  rw [← h, Nat.and_distrib_right, h, h, hx, hy]
  rfl

/-- Running the PPU for a sum of cycle counts is running it for each count
in turn. -/
theorem ppu_run_add (a b : Nat) (s : PpuState) :
    ppu_run (a + b) s = ppu_run b (ppu_run a s) := by
  induction b with
  | zero => rfl
  | succ b ih =>
    show ppu_tick (ppu_run (a + b) s) = ppu_tick (ppu_run b (ppu_run a s))
    rw [ih]

/-- The frame driver's fan-out of per-instruction cycle costs to the PPU
depends only on the total number of cycles, not on how the instruction mix
chunks them. -/
theorem frame_advance_eq_run (cs : List Nat) (s : PpuState) :
    frame_advance cs s = ppu_run cs.sum s := by
  induction cs generalizing s with
  | nil => rfl
  | cons c cs ih =>
    show frame_advance cs (ppu_run c s) = ppu_run ((c :: cs).sum) s
    rw [ih, List.sum_cons, ppu_run_add]

/-- Characterization of the PPU clock from power-on through the first
frame: below 70224 cycles the scanline and dot counters are the cycle
count's quotient and remainder by 456 with no frame completed; at exactly
70224 cycles (154 lines of 456 cycles) the first frame completes and the
counters return to zero. -/
theorem ppu_run_init_char (k : Nat) (hk : k ≤ 70224) :
    ppu_run k ⟨0, 0, 0⟩ =
      if k = 70224 then ⟨0, 0, 1⟩ else ⟨k / 456, k % 456, 0⟩ := by
  induction k with
  | zero => simp [ppu_run]
  | succ k ih =>
    have hlt : k < 70224 := by omega
    have hrun : ppu_run k ⟨0, 0, 0⟩ = ⟨k / 456, k % 456, 0⟩ := by
      rw [ih (by omega), if_neg (by omega)]
    show ppu_tick (ppu_run k ⟨0, 0, 0⟩) = _
    rw [hrun]
    simp only [ppu_tick]
    split_ifs <;> simp_all [PpuState.mk.injEq] <;> omega

/-- A state already halted on an illegal opcode is a fixed point of the
execution engine's step. -/
theorem spec_run_halted (mem : Mem) (s : ExecState)
    (h : s.halted_illegal = true) : ∀ n, spec_run mem n s = s := by
  intro n
  induction n with
  | zero => rfl
  | succ n ih =>
    show spec_step mem (spec_run mem n s) = s
    rw [ih]
    simp [spec_step, h]

/-! ## Claim theorems -/

/-- Claim C1 (code bug): the spec's own example A=0xFF, E=0x01 refutes the
code as written.  `add_register_e` tests the Zero flag before masking the
sum to 8 bits, so from 0xFF + 0x01 = 256 the Zero flag stays clear even
though the truncated result is 0; it never computes a Half-Carry bit at
all.  The code yields A=0x00 and F=0x10 (Carry only) with cycle cost 4,
where the claim requires F=0xB0 (Zero, Half-Carry and Carry). -/
theorem add_register_e_spec_example_fails :
    (add_register_e c1_state).r.a = 0x00 ∧
    (add_register_e c1_state).r.f = 0x10 ∧
    (add_register_e c1_state).r.t = 4 ∧
    Nat.testBit (add_register_e c1_state).r.f 7 = false ∧
    Nat.testBit (add_register_e c1_state).r.f 5 = false := by
  decide

/-- Claim C2 (code bug): `compare_register_b` never computes a Half-Carry
bit.  At A=0x10, B=0x01 with clear flags, the low nibble of B (1) exceeds
the low nibble of A (0), so the claim requires the Half-Carry bit 0x20 to
be set; the code leaves F=0x40 (Subtract only).  Register A is unchanged,
as the claim also states. -/
theorem compare_register_b_half_carry_missing :
    (compare_register_b c2_state).r.f = 0x40 ∧
    Nat.testBit (compare_register_b c2_state).r.f 5 = false ∧
    (compare_register_b c2_state).r.a = 0x10 := by
  decide

/-- Claim C3: pushing register pair BC and then immediately popping into
pair HL restores the pushed 16-bit value exactly — the high byte B lands in
the high register H, the low byte C in the low register L — and the stack
pointer returns to its value before the push. -/
theorem push_pop_roundtrip (s : Cpu) (hsp : s.r.sp < 65536) :
    (pop_registers_h_l (push_registers_b_c s)).r.h = s.r.b ∧
    (pop_registers_h_l (push_registers_b_c s)).r.l = s.r.c ∧
    (pop_registers_h_l (push_registers_b_c s)).r.sp = s.r.sp := by
  simp only [push_registers_b_c, pop_registers_h_l, wb, rb]
  split_ifs <;> first | rfl | omega

/-- Witness for C3 at a concrete machine state. -/
theorem push_pop_roundtrip_witness :
    (pop_registers_h_l (push_registers_b_c sample_cpu)).r.h = sample_cpu.r.b ∧
    (pop_registers_h_l (push_registers_b_c sample_cpu)).r.l = sample_cpu.r.c ∧
    (pop_registers_h_l (push_registers_b_c sample_cpu)).r.sp = sample_cpu.r.sp :=
  push_pop_roundtrip sample_cpu (by decide)

/-- Claim C4: every operation implemented in `cpu.rs` preserves the
invariant that the low nibble of the flags register F is zero: ADD A,E
rebuilds F from 0 with bits 0x80/0x10, CP A,B only ORs in bits at or above
0x10, and the remaining operations do not touch F. -/
theorem flag_low_nibble_invariant (s : Cpu) (hf : s.r.f % 16 = 0) :
    (add_register_e s).r.f % 16 = 0 ∧
    (compare_register_b s).r.f % 16 = 0 ∧
    (no_operation s).r.f % 16 = 0 ∧
    (push_registers_b_c s).r.f % 16 = 0 ∧
    (pop_registers_h_l s).r.f % 16 = 0 ∧
    (ldamm s).r.f % 16 = 0 := by
  refine ⟨?_, ?_, ?_, ?_, ?_, ?_⟩
  · simp only [add_register_e]
    split_ifs <;> decide
  · simp only [compare_register_b]
    split_ifs
    · exact lor_mod_sixteen (lor_mod_sixteen (lor_mod_sixteen hf (by decide)) (by decide)) (by decide)
    · exact lor_mod_sixteen (lor_mod_sixteen hf (by decide)) (by decide)
    · exact lor_mod_sixteen (lor_mod_sixteen hf (by decide)) (by decide)
    · exact lor_mod_sixteen hf (by decide)
  · simpa only [no_operation] using hf
  · simpa only [push_registers_b_c] using hf
  · simpa only [pop_registers_h_l] using hf
  · simpa only [ldamm] using hf

/-- Witness for C4 at a concrete machine state whose F low nibble is
zero. -/
theorem flag_low_nibble_invariant_witness :
    (add_register_e sample_cpu).r.f % 16 = 0 ∧
    (compare_register_b sample_cpu).r.f % 16 = 0 ∧
    (no_operation sample_cpu).r.f % 16 = 0 ∧
    (push_registers_b_c sample_cpu).r.f % 16 = 0 ∧
    (pop_registers_h_l sample_cpu).r.f % 16 = 0 ∧
    (ldamm sample_cpu).r.f % 16 = 0 :=
  flag_low_nibble_invariant sample_cpu (by decide)

/-- Claim C5: once the execution engine fetches a documented illegal
opcode from a running (not yet halted) state, the program counter is
unchanged by that step and by every number of subsequent step calls, and
the lock-up is surfaced as the stable halted-on-illegal-opcode condition. -/
theorem illegal_opcode_lockup (mem : Mem) (s : ExecState) (n : Nat)
    (hill : mem s.pc ∈ illegal_opcodes)
    (hst : s.halted_illegal = false) :
    (spec_run mem n (spec_step mem s)).pc = s.pc ∧
    (spec_run mem n (spec_step mem s)).halted_illegal = true := by
  have hstep : spec_step mem s = { s with halted_illegal := true } := by
    simp [spec_step, hst, hill]
  rw [hstep, spec_run_halted mem _ rfl n]
  exact ⟨rfl, rfl⟩

/-- Witness for C5: memory filled with the illegal opcode 0xD3, three
further step calls after the faulting one. -/
theorem illegal_opcode_lockup_witness :
    (spec_run (fun _ => 0xD3) 3 (spec_step (fun _ => 0xD3) ⟨0x100, false⟩)).pc = 0x100 ∧
    (spec_run (fun _ => 0xD3) 3 (spec_step (fun _ => 0xD3) ⟨0x100, false⟩)).halted_illegal = true :=
  illegal_opcode_lockup (fun _ => 0xD3) ⟨0x100, false⟩ 3 (by decide) rfl

/-- Claim C6: a full frame consumes exactly 70224 cycles (154 scanlines of
456 cycles).  For every instruction mix whose cycle costs sum to 70224 the
frame driver brings the power-on PPU state to exactly one completed frame,
and no strictly smaller cycle count completes a frame. -/
theorem frame_consumes_70224 (costs : List Nat) (k : Nat)
    (hsum : costs.sum = 70224) (hk : k < 70224) :
    frame_advance costs ⟨0, 0, 0⟩ = ⟨0, 0, 1⟩ ∧
    (ppu_run k ⟨0, 0, 0⟩).frames = 0 := by
  constructor
  · rw [frame_advance_eq_run, hsum, ppu_run_init_char 70224 (by omega), if_pos rfl]
  · rw [ppu_run_init_char k (by omega), if_neg (by omega)]

/-- Witness for C6: a single 70224-cycle chunk completes exactly one
frame, and after 0 cycles no frame has completed. -/
theorem frame_consumes_70224_witness :
    frame_advance [70224] ⟨0, 0, 0⟩ = ⟨0, 0, 1⟩ ∧
    (ppu_run 0 ⟨0, 0, 0⟩).frames = 0 :=
  frame_consumes_70224 [70224] 0 (by simp) (by omega)

/-- Claim C7: writing any value to the divider register's mapped address
0xFF04 resets the divider to zero instead of storing the value, so a
subsequent read of that address returns zero. -/
theorem divider_write_reads_zero (t : Timer) (v : Nat) :
    timer_read (timer_write t 0xFF04 v) 0xFF04 = 0 := by
  simp [timer_read, timer_write]

/-- Claim C8: every operation of the emulator core is deterministic — from
equal starting states each operation produces equal resulting states (and
hence equal returned cycle counts in the clock fields), with no
nondeterministic branch or retry. -/
theorem operations_deterministic (s1 s2 : Cpu) (h : s1 = s2) :
    add_register_e s1 = add_register_e s2 ∧
    compare_register_b s1 = compare_register_b s2 ∧
    no_operation s1 = no_operation s2 ∧
    push_registers_b_c s1 = push_registers_b_c s2 ∧
    pop_registers_h_l s1 = pop_registers_h_l s2 ∧
    ldamm s1 = ldamm s2 := by
  subst h
  exact ⟨rfl, rfl, rfl, rfl, rfl, rfl⟩

/-- Witness for C8 at a concrete machine state. -/
theorem operations_deterministic_witness :
    add_register_e sample_cpu = add_register_e sample_cpu ∧
    compare_register_b sample_cpu = compare_register_b sample_cpu ∧
    no_operation sample_cpu = no_operation sample_cpu ∧
    push_registers_b_c sample_cpu = push_registers_b_c sample_cpu ∧
    pop_registers_h_l sample_cpu = pop_registers_h_l sample_cpu ∧
    ldamm sample_cpu = ldamm sample_cpu :=
  operations_deterministic sample_cpu sample_cpu rfl

/-- Claim C9: the absolute-load handler `ldamm` advances the program
counter by exactly 2 (modulo the 16-bit range), modifies only A, the
program counter and the cycle counters m and t, leaves B, C, D, E, H, L, F
and the stack pointer unchanged, and writes no memory. -/
theorem ldamm_frame_effect (s : Cpu) :
    (ldamm s).r.pc = (s.r.pc + 2) % 65536 ∧
    (ldamm s).r.b = s.r.b ∧ (ldamm s).r.c = s.r.c ∧
    (ldamm s).r.d = s.r.d ∧ (ldamm s).r.e = s.r.e ∧
    (ldamm s).r.h = s.r.h ∧ (ldamm s).r.l = s.r.l ∧
    (ldamm s).r.f = s.r.f ∧ (ldamm s).r.sp = s.r.sp ∧
    (ldamm s).mem = s.mem ∧
    (ldamm s).r.m = 4 ∧ (ldamm s).r.t = 16 :=
  ⟨rfl, rfl, rfl, rfl, rfl, rfl, rfl, rfl, rfl, rfl, rfl, rfl⟩

/-- Claim C10: `compare_register_b` only ORs bits into the flags register,
so every flag bit set before the compare is still set afterwards. -/
theorem compare_preserves_set_flags (s : Cpu) :
    s.r.f &&& (compare_register_b s).r.f = s.r.f := by
  simp only [compare_register_b]
  split_ifs <;> (try simp only [Nat.or_assoc]) <;> exact land_lor_absorb _ _

end Gameboy
